import Mathlib

/-!
# Verification of the ipsw sandbox subsystem (pkg/kernelcache/sandbox.go)

A shallow embedding of the sandbox profile-collection locator and decoder:

* the blob is a `List Nat` of bytes (each entry is one byte of the input);
* `bytes.Reader` positions are explicit `Nat` arguments threaded through
  the read primitives;
* fallible reads return `Option`; `none` corresponds to a Go error return
  (and, where noted in comments, to a Go runtime panic);
* machine integers are `Nat` with explicit `% 2 ^ w` where Go wrap-around
  can occur.

The embedding follows the Go source statement by statement; each definition
carries a comment pointing to the function it models.
-/

namespace Sandbox

/-! ## Byte-level primitives

`bytesAt blob pos n` is the content of an `n`-byte buffer filled from
`blob` starting at `pos`: positions past the end of `blob` contribute `0`,
matching a zero-initialized Go buffer that a short `Read` only partially
fills.  All exact-read primitives guard with an explicit bounds check, so
for them the padding case never arises. -/

def bytesAt (blob : List Nat) (pos n : Nat) : List Nat :=
  (List.range n).map (fun i => blob.getD (pos + i) 0)

/-- Little-endian u16 assembled from the two bytes at `pos`. -/
def getU16 (blob : List Nat) (pos : Nat) : Nat :=
  blob.getD pos 0 + 256 * blob.getD (pos + 1) 0

/-- Little-endian u64 assembled from the eight bytes at `pos`. -/
def getU64 (blob : List Nat) (pos : Nat) : Nat :=
  blob.getD pos 0 +
  256 * (blob.getD (pos + 1) 0 +
  256 * (blob.getD (pos + 2) 0 +
  256 * (blob.getD (pos + 3) 0 +
  256 * (blob.getD (pos + 4) 0 +
  256 * (blob.getD (pos + 5) 0 +
  256 * (blob.getD (pos + 6) 0 +
  256 * blob.getD (pos + 7) 0))))))

/-- Go `binary.Read` of an `n`-byte buffer from a `bytes.Reader` at `pos`:
`io.ReadFull` succeeds only if all `n` bytes are available (for `n = 0` it
succeeds unconditionally, even past the end). -/
def readBytes (blob : List Nat) (pos n : Nat) : Option (List Nat × Nat) :=
  if n = 0 then some ([], pos)
  else if pos + n ≤ blob.length then some (bytesAt blob pos n, pos + n)
  else none

/-- Go `binary.Read` of a single little-endian `uint16`. -/
def readU16 (blob : List Nat) (pos : Nat) : Option (Nat × Nat) :=
  if pos + 2 ≤ blob.length then some (getU16 blob pos, pos + 2) else none

/-- Go `binary.Read` of a single little-endian `uint64`. -/
def readU64 (blob : List Nat) (pos : Nat) : Option (Nat × Nat) :=
  if pos + 8 ≤ blob.length then some (getU64 blob pos, pos + 8) else none

/-- The little-endian u16 values at `pos, pos+2, …` (`n` of them). -/
def u16sAt (blob : List Nat) (pos n : Nat) : List Nat :=
  (List.range n).map (fun i => getU16 blob (pos + 2 * i))

/-- Go `binary.Read` into a `[]uint16` of length `n` (2·`n` bytes, all or
nothing; a zero-length slice reads zero bytes and always succeeds). -/
def readU16s (blob : List Nat) (pos n : Nat) : Option (List Nat × Nat) :=
  if n = 0 then some ([], pos)
  else if pos + 2 * n ≤ blob.length then some (u16sAt blob pos n, pos + 2 * n)
  else none

/-- A single `(*bytes.Reader).Read` into a fresh `n`-byte buffer
(`str := make([]byte, n); r.Read(str)`): it errors (`io.EOF`) only when the
position is at or past the end of the data; otherwise it copies the bytes
that are available, leaves the rest of the buffer zero, and advances by the
number of bytes actually copied. -/
def readBody (blob : List Nat) (pos n : Nat) : Option (List Nat × Nat) :=
  if pos < blob.length then
    some (bytesAt blob pos n, pos + min n (blob.length - pos))
  else none

/-! ## Data model (`sandbox.go` lines 17-44) -/

/-- Go struct `SandboxProfileCollection`; `binary.Read` decodes it packed,
little-endian: u16, u16, u8, u8, u16, u16, u16 — 12 bytes in total. -/
structure SandboxProfileCollection where
  version : Nat
  opNodeSize : Nat
  opCount : Nat
  globalVarCount : Nat
  profileCount : Nat
  regexItemCount : Nat
  msgItemCount : Nat
  deriving Repr, DecidableEq

/-- Go struct `SandboxOperation` (name, u16 index, u64 value). -/
structure SandboxOperation where
  name : String
  index : Nat
  value : Nat
  deriving Repr, DecidableEq

/-- Go struct `SandboxProfile`.  `name` is kept as raw bytes: a Go `string`
is an arbitrary byte sequence. -/
structure SandboxProfile where
  name : List Nat
  version : Nat
  operations : List SandboxOperation
  deriving Repr, DecidableEq

/-- Go struct `Sandbox`.  The three Go maps are modeled as association
lists with Go-map insert/overwrite semantics (`insertAssoc`). -/
structure SandboxValue where
  globals : List (Nat × List Nat)
  regexes : List (Nat × List Nat)
  opNodes : List (Nat × Nat)
  profiles : List SandboxProfile
  deriving Repr, DecidableEq

/-- Go map assignment `m[k] = v`: overwrite an existing key, else append. -/
def insertAssoc {α : Type} (k : Nat) (v : α) : List (Nat × α) → List (Nat × α)
  | [] => [(k, v)]
  | (k', v') :: rest =>
      if k' = k then (k, v) :: rest else (k', v') :: insertAssoc k v rest

/-- The 12-byte packed header decoded from `blob` at `pos`
(field extraction used by `readCollection`; total on purpose, the bounds
check lives in `readCollection`). -/
def collectionAt (blob : List Nat) (pos : Nat) : SandboxProfileCollection :=
  { version := getU16 blob pos
    opNodeSize := getU16 blob (pos + 2)
    opCount := blob.getD (pos + 4) 0
    globalVarCount := blob.getD (pos + 5) 0
    profileCount := getU16 blob (pos + 6)
    regexItemCount := getU16 blob (pos + 8)
    msgItemCount := getU16 blob (pos + 10) }

/-- Line 315, `binary.Read(r, binary.LittleEndian, &collection)`: 12 bytes, all or
nothing (`sandbox.go` line 315). -/
def readCollection (blob : List Nat) (pos : Nat) :
    Option (SandboxProfileCollection × Nat) :=
  if pos + 12 ≤ blob.length then some (collectionAt blob pos, pos + 12)
  else none

/-! ## Size and alignment arithmetic (`sandbox.go` lines 334-357) -/

/-- Line 334, `profileSize := uint32(collection.OpCount+uint8(binary.Size(uint16(0)))) * 2`.  `OpCount` is a `uint8` and the addition `OpCount + 2` is
performed in `uint8`, so it wraps modulo 256 before the widening to
`uint32` and the doubling. -/
def profileSizeOf (opCount : Nat) : Nat :=
  ((opCount + 2) % 256) * 2

/-- The op-node start alignment (lines 344-352):
`delta = 8 - (tmp & 6)` unless `tmp & 6 == 0`, in which case `delta = 0`;
the aligned position is `tmp + delta`. -/
def opNodeAlign (x : Nat) : Nat :=
  if x &&& 6 = 0 then x else x + (8 - (x &&& 6))

/-! ## Profile records (`sandbox.go` lines 359-406) -/

/-- The loop reading `profile_count` records of `profileSize` bytes each
(lines 360-366); each record is read all-or-nothing by `binary.Read`. -/
def readProfileDatas (blob : List Nat) (size : Nat) :
    Nat → Nat → Option (List (List Nat) × Nat)
  | pos, 0 => some ([], pos)
  | pos, n + 1 =>
    match readBytes blob pos size with
    | none => none
    | some (d, pos') =>
      match readProfileDatas blob size pos' n with
      | none => none
      | some (ds, pos'') => some (d :: ds, pos'')

/-- The per-profile operation loop (lines 382-389): for each `i` below
`opCount`, build `SandboxOperation{Name: opsList[i]}` and read its u16
index from the profile record.  Go panics when `i` reaches the end of
`opsList`; the panic is modeled as `none` (in both cases no `Sandbox` is
returned). -/
def readOps (prof : List Nat) : Nat → List String → Nat →
    Option (List SandboxOperation × Nat)
  | pos, _, 0 => some ([], pos)
  | _, [], _ + 1 => none
  | pos, nm :: rest, n + 1 =>
    match readU16 prof pos with
    | none => none
    | some (idx, pos') =>
      match readOps prof pos' rest n with
      | none => none
      | some (ops, pos'') =>
        some ({ name := nm, index := idx, value := 0 } :: ops, pos'')

/-- Go `strings.Trim(string(str), "\x00")`: remove leading and trailing NUL
bytes (Go `Trim` cuts from both ends; interior bytes are untouched). -/
def trimNul (s : List Nat) : List Nat :=
  ((s.dropWhile (· = 0)).reverse.dropWhile (· = 0)).reverse

/-- Decode one profile record (lines 368-405): u16 name offset, u16
version, `opCount` u16 op-node indices from the record itself; then on the
main reader seek to `baseAddr + 8*nameOffset`, read a u16 length and that
many bytes, and strip NULs.  Each iteration starts with an absolute
`Seek`, so the main reader position left by the previous iteration is
irrelevant and is not threaded. -/
def buildProfile (blob : List Nat) (baseAddr : Nat) (opsList : List String)
    (opCount : Nat) (prof : List Nat) : Option SandboxProfile :=
  match readU16 prof 0 with
  | none => none
  | some (nameOffset, pos1) =>
    match readU16 prof pos1 with
    | none => none
    | some (version, pos2) =>
      match readOps prof pos2 opsList opCount with
      | none => none
      | some (ops, _) =>
        let namePos := baseAddr + 8 * nameOffset
        match readU16 blob namePos with
        | none => none
        | some (nameLength, pos3) =>
          match readBody blob pos3 nameLength with
          | none => none
          | some (str, _) =>
            some { name := trimNul str, version := version, operations := ops }

/-- The `for idx, prof := range profileDatas` loop (line 368). -/
def buildProfiles (blob : List Nat) (baseAddr : Nat) (opsList : List String)
    (opCount : Nat) : List (List Nat) → Option (List SandboxProfile)
  | [] => some []
  | prof :: rest =>
    match buildProfile blob baseAddr opsList opCount prof with
    | none => none
    | some sp =>
      match buildProfiles blob baseAddr opsList opCount rest with
      | none => none
      | some sps => some (sp :: sps)

/-! ## Op nodes and value resolution (`sandbox.go` lines 412-434) -/

/-- The op-node loop (lines 420-428): for each offset in the offset table
(in table order) seek to that absolute offset, read a u64, `append` it to
`opNodes` and store it in the `sb.OpNodes` map.  The accumulator `vals` is
seeded by the caller with `List.replicate opNodeCount 0`, mirroring
`opNodes := make([]uint64, opNodeCount)` (line 419) followed by `append`
(line 426), which extends the slice after its `opNodeCount` zero entries
instead of filling them. -/
def readOpNodes (blob : List Nat) :
    List Nat → List Nat → List (Nat × Nat) → Option (List Nat × List (Nat × Nat))
  | [], vals, m => some (vals, m)
  | off :: offs, vals, m =>
    match readU64 blob off with
    | none => none
    | some (v, _) => readOpNodes blob offs (vals ++ [v]) (insertAssoc off v m)

/-- Line 432, `sb.Profiles[i].Operations[j].Value = opNodes[o.Index]`, for
one operation.  An index past the end of the slice panics in Go; the panic
is modeled as `none`. -/
def resolveOp (positional : List Nat) (o : SandboxOperation) :
    Option SandboxOperation :=
  if o.index < positional.length then
    some { o with value := positional.getD o.index 0 }
  else none

/-- The inner value-resolution loop (line 431), over one profile's
operation list. -/
def resolveOpList (positional : List Nat) :
    List SandboxOperation → Option (List SandboxOperation)
  | [] => some []
  | o :: os =>
    match resolveOp positional o with
    | none => none
    | some o' =>
      match resolveOpList positional os with
      | none => none
      | some os' => some (o' :: os')

/-- Value resolution for one profile. -/
def resolveProfile (positional : List Nat) (p : SandboxProfile) :
    Option SandboxProfile :=
  match resolveOpList positional p.operations with
  | none => none
  | some ops => some { p with operations := ops }

/-- The nested value-resolution loops (lines 430-434). -/
def resolveValues (positional : List Nat) :
    List SandboxProfile → Option (List SandboxProfile)
  | [] => some []
  | p :: ps =>
    match resolveProfile positional p with
    | none => none
    | some p' =>
      match resolveValues positional ps with
      | none => none
      | some ps' => some (p' :: ps')

/-! ## Globals and regexes (`sandbox.go` lines 455-489) -/

/-- The globals loop (lines 455-470): seek to `baseAddr + 8*goff`, read a
u16 length, read the body, strip NULs from both ends, store in the map. -/
def readGlobals (blob : List Nat) (baseAddr : Nat) :
    List Nat → List (Nat × List Nat) → Option (List (Nat × List Nat))
  | [], acc => some acc
  | g :: gs, acc =>
    let p := baseAddr + 8 * g
    match readU16 blob p with
    | none => none
    | some (globalLength, pos') =>
      match readBody blob pos' globalLength with
      | none => none
      | some (str, _) =>
        readGlobals blob baseAddr gs (insertAssoc g (trimNul str) acc)

/-- The regex loop (lines 472-489): same shape as the globals loop but the
bytes are stored verbatim (no NUL stripping). -/
def readRegexes (blob : List Nat) (baseAddr : Nat) :
    List Nat → List (Nat × List Nat) → Option (List (Nat × List Nat))
  | [], acc => some acc
  | roff :: rs, acc =>
    let p := baseAddr + 8 * roff
    match readU16 blob p with
    | none => none
    | some (itemLength, pos') =>
      match readBody blob pos' itemLength with
      | none => none
      | some (d, _) =>
        readRegexes blob baseAddr rs (insertAssoc roff d acc)

/-! ## The parser (`sandbox.go` lines 304-492) -/

/-- Go `ParseSandboxCollection(data, opsList)`.  All the uint32 position
arithmetic is well below `2 ^ 32` (every term is bounded by small multiples
of u16/u8 field values), so plain `Nat` arithmetic is exact. -/
def ParseSandboxCollection (blob : List Nat) (opsList : List String) :
    Option SandboxValue :=
  -- Each `bind` models one Go `if err != nil { return nil, err }` early
  -- return; stage results are pairs `(value, position after the read)`.
  (readCollection blob 0).bind fun cp =>
  (readU16s blob cp.2 cp.1.regexItemCount).bind fun regexOffsets =>
  (readU16s blob regexOffsets.2 cp.1.globalVarCount).bind fun globalOffsets =>
  (readU16s blob globalOffsets.2 cp.1.msgItemCount).bind fun msgOffsets =>
  let profileSize := profileSizeOf cp.1.opCount
  let globalVarStart := 2 * cp.1.regexItemCount + 12
  let globalVarEnd := globalVarStart + 2 * cp.1.globalVarCount
  let opNodeStartTmp :=
    globalVarEnd + 2 * cp.1.msgItemCount + profileSize * cp.1.profileCount
  let opNodeStart := opNodeAlign opNodeStartTmp
  let baseAddr := opNodeStart + cp.1.opNodeSize * 8
  (readProfileDatas blob profileSize msgOffsets.2 cp.1.profileCount).bind
    fun profileDatas =>
  (buildProfiles blob baseAddr opsList cp.1.opCount profileDatas.1).bind
    fun profiles =>
  let opNodeCount := (baseAddr - opNodeStart) / 8
  (readU16s blob opNodeStart opNodeCount).bind fun opNodeOffsets =>
  (readOpNodes blob opNodeOffsets.1 (List.replicate opNodeCount 0) []).bind
    fun posAndMap =>
  (resolveValues posAndMap.1 profiles).bind fun profiles2 =>
  (readGlobals blob baseAddr globalOffsets.1 []).bind fun globals =>
  (readRegexes blob baseAddr regexOffsets.1 []).bind fun regexes =>
  some { globals := globals, regexes := regexes,
         opNodes := posAndMap.2, profiles := profiles2 }

/-! ## Tagged pointers and the opcode-name extractor
(`sandbox.go` lines 54-96, 494-500) -/

/-- Modelled from the spec: the canonical kernel high half
`0xFFFF_0000_0000_0000` OR-ed onto pointers before dereference (the
constant `tagPtrMask` is defined outside the provided sources). -/
def tagPtrMask : Nat := 0xffff000000000000

/-- Line 494, `getTag(ptr) = ptr >> 48`. -/
def getTag (ptr : Nat) : Nat := ptr >>> 48

/-- Line 498, `unTag(ptr) = (ptr & (1<<48 - 1)) | (0xffff << 48)`. -/
def unTag (ptr : Nat) : Nat := (ptr &&& (2 ^ 48 - 1)) ||| (0xffff <<< 48)

/-- The pointer-walking loop of `GetSandboxOpts` (lines 66-90).
`f` abstracts `m.GetCString`: `none` is a lookup error.  The Boolean
argument is the `found` flag. -/
def optsLoop (f : Nat → Option String) : Bool → List Nat → List String
  | _, [] => []
  | found, ptr :: ps =>
    if ptr = 0 then optsLoop f found ps
    else
      match f (ptr ||| tagPtrMask) with
      | none => if found then [] else optsLoop f found ps
      | some str =>
        let found' := if str = "default" then true else found
        if found' then
          str :: (if getTag ptr ≠ 0x17 then [] else optsLoop f found' ps)
        else optsLoop f found' ps

/-- Go `GetSandboxOpts` (lines 54-96).  `sec` abstracts the
`__DATA_CONST,__const` section: `none` when the section is absent,
`some ptrs` for the little-endian u64 pointer array decoded from its data.
(The two early error returns — a failing `Section.Data()` or a failing
`binary.Read` — yield no options list at all and are outside this model,
which covers the successful executions the claims are about.) -/
def GetSandboxOpts (sec : Option (List Nat)) (f : Nat → Option String) :
    List String :=
  match sec with
  | none => []
  | some ptrs => optsLoop f false ptrs

/-! ## The ARM64 locator (`sandbox.go` lines 99-292)

The disassembler is external (`disassemble.Decompose`); the locator is
embedded over the list of successfully decoded instructions in stream
order, with the operand shape the Go code consumes.  Decode failures
(`continue`, line 173) simply do not appear in the list; `prevInstr` is
only updated on success, matching that model. -/

inductive Operation where
  | ARM64_MOV
  | ARM64_MOVK
  | ARM64_ADRP
  | ARM64_ADD
  | ARM64_LDR
  | ARM64_ADR
  | ARM64_OTHER
  deriving Repr, DecidableEq

inductive Encoding where
  | ENC_BL_ONLY_BRANCH_IMM
  | ENC_B_ONLY_BRANCH_IMM
  | ENC_CBZ_64_COMPBRANCH
  | ENC_OTHER
  deriving Repr, DecidableEq

inductive OperandClass where
  | IMM32
  | IMM64
  | REG
  | OTHER
  deriving Repr, DecidableEq

inductive ShiftType where
  | SHIFT_TYPE_LSL
  | SHIFT_TYPE_NONE
  | SHIFT_TYPE_OTHER
  deriving Repr, DecidableEq

/-- One operand as the Go code reads it (`Registers`, `Immediate`,
`Class`, `ShiftType`, `ShiftValue`; the Go field `Class` is spelled
`cls`). -/
structure Operand where
  registers : List Nat
  immediate : Nat
  cls : OperandClass
  shiftType : ShiftType
  shiftValue : Nat
  deriving Repr, DecidableEq

/-- A decoded instruction (`Address`, `Operation`, `Encoding`,
`Operands`). -/
structure Instruction where
  address : Nat
  operation : Operation
  encoding : Encoding
  operands : List Operand
  deriving Repr, DecidableEq

/-- The default operand used for out-of-range operand accesses; the Go
code would panic on such an access (it only performs them on instruction
shapes where the operands exist). -/
def noOperand : Operand :=
  { registers := [], immediate := 0, cls := OperandClass.OTHER,
    shiftType := ShiftType.SHIFT_TYPE_NONE, shiftValue := 0 }

/-- Access `ins.Operands[i]` with the panic case defaulted. -/
def operandAt (ins : Instruction) (i : Nat) : Operand :=
  ins.operands.getD i noOperand

/-- Access `operand.Registers[0]` with the panic case defaulted. -/
def reg0 (o : Operand) : Nat := o.registers.getD 0 0

/-- Go `uint64` subtraction `a - b` (wraps modulo `2 ^ 64`). -/
def u64sub (a b : Nat) : Nat := (a + (2 ^ 64 - b % 2 ^ 64)) % 2 ^ 64

/-- Go `uint64` left shift `x << s` (a shift of 64 or more yields 0). -/
def u64shl (x s : Nat) : Nat :=
  if s < 64 then (x % 2 ^ 64) * 2 ^ s % 2 ^ 64 else 0

/-- The `ADRP` pair fusion shared by both loops (lines 182-191 and
240-248): starting from the `ADRP` page immediate, add the `LDR` operand-1
immediate or the `ADD` operand-2 immediate when the first source register
matches the `ADRP` destination; otherwise keep the page immediate alone. -/
def adrpFusedImm (prev ins : Instruction) : Nat :=
  let adrpRegister := reg0 (operandAt prev 0)
  let adrpImm := (operandAt prev 1).immediate
  if ins.operation = Operation.ARM64_LDR ∧
      adrpRegister = reg0 (operandAt ins 1) then
    adrpImm + (operandAt ins 1).immediate
  else if ins.operation = Operation.ARM64_ADD ∧
      adrpRegister = reg0 (operandAt ins 1) then
    adrpImm + (operandAt ins 2).immediate
  else adrpImm

/-- The cross-reference recorded for one instruction by the first loop
(lines 176-192), given the previous successfully decoded instruction. -/
def refOf (prev : Option Instruction) (ins : Instruction) : Option Nat :=
  if ins.encoding = Encoding.ENC_BL_ONLY_BRANCH_IMM ∨
      ins.encoding = Encoding.ENC_B_ONLY_BRANCH_IMM then
    some (operandAt ins 0).immediate
  else if ins.encoding = Encoding.ENC_CBZ_64_COMPBRANCH then
    some (operandAt ins 1).immediate
  else if ins.operation = Operation.ARM64_ADR ∨
      ins.operation = Operation.ARM64_LDR then
    some (operandAt ins 1).immediate
  else
    match prev with
    | none => none
    | some pv =>
      if pv.operation = Operation.ARM64_ADRP ∧
          (ins.operation = Operation.ARM64_ADD ∨
           ins.operation = Operation.ARM64_LDR) then
        some (adrpFusedImm pv ins)
      else none

/-- The first disassembly loop (lines 164-198): build the
`references` map in stream order (`insertAssoc` gives Go-map overwrite
semantics; instruction addresses are distinct in practice). -/
def buildReferences : List Instruction → Option Instruction →
    List (Nat × Nat) → List (Nat × Nat)
  | [], _, acc => acc
  | ins :: rest, prev, acc =>
    match refOf prev ins with
    | none => buildReferences rest (some ins) acc
    | some v => buildReferences rest (some ins) (insertAssoc ins.address v acc)

/-- Lines 200-207: scan `references` for a value equal to the panic-string
address and take `k - 4` for its key `k`; the variable keeps its zero
value when there is no match.  (Go iterates the map in unspecified order;
the embedding determinizes to the first match in insertion order.) -/
def findPanicXref (refs : List (Nat × Nat)) (target : Nat) : Nat :=
  match refs.find? (fun kv => kv.2 = target) with
  | some kv => u64sub kv.1 4
  | none => 0

/-- Lines 209-216: scan `references` for a value equal to the panic-xref
address; zero when there is no match. -/
def findFailXref (refs : List (Nat × Nat)) (target : Nat) : Nat :=
  match refs.find? (fun kv => kv.2 = target) with
  | some kv => kv.1
  | none => 0

/-- The last IMM64-class operand immediate, if any (the Go loop at lines
252-257 overwrites `profileSize` once per matching operand, so the last
match wins). -/
def lastImm64 (ops : List Operand) : Option Nat :=
  match ops.filter (fun o => o.cls = OperandClass.IMM64) with
  | [] => none
  | l => some ((l.getLast?).getD noOperand).immediate

/-- One step of the second loop's window scan (lines 239-269), updating
the pair `(profileVMAddr, profileSize)`.  The Go locals `movRegister`,
`movImm` and `op1 = operands[1]` are inlined.  With no previous
instruction the ADRP branch's nil-check fails and the MOVK branch would
dereference the nil `prevInstr` (a Go panic, unreachable because the
shared `prevInstr` is non-nil whenever the stream is non-empty); only the
MOV branch remains reachable in that case. -/
def windowStep (failXref : Nat) :
    Option Instruction → Instruction → Nat × Nat → Nat × Nat
  | some pv, ins, st =>
    if u64sub failXref 0x20 < ins.address ∧ ins.address < failXref then
      if pv.operation = Operation.ARM64_ADRP ∧
          (ins.operation = Operation.ARM64_ADD ∨
           ins.operation = Operation.ARM64_LDR) then
        (adrpFusedImm pv ins, st.2)
      else if ins.operation = Operation.ARM64_MOV then
        match lastImm64 ins.operands with
        | some v => (st.1, v)
        | none => st
      else if ins.operation = Operation.ARM64_MOVK ∧
          pv.operation = Operation.ARM64_MOV then
        if reg0 (operandAt pv 0) = reg0 (operandAt ins 0) then
          if (operandAt ins 1).cls = OperandClass.IMM32 ∧
              (operandAt ins 1).shiftType = ShiftType.SHIFT_TYPE_LSL then
            (st.1, ((operandAt pv 1).immediate +
              u64shl (operandAt ins 1).immediate
                (operandAt ins 1).shiftValue) % 2 ^ 64)
          else st
        else st
      else st
    else st
  | none, ins, st =>
    if u64sub failXref 0x20 < ins.address ∧ ins.address < failXref then
      if ins.operation = Operation.ARM64_MOV then
        match lastImm64 ins.operands with
        | some v => (st.1, v)
        | none => st
      else st
    else st

/-- The fold driving the second disassembly loop. -/
def windowScanGo (failXref : Nat) :
    List Instruction → Option Instruction → Nat × Nat → Nat × Nat
  | [], _, st => st
  | ins :: rest, prev, st =>
    windowScanGo failXref rest (some ins) (windowStep failXref prev ins st)

/-- The second disassembly loop (lines 224-273).  The initial `prev` is
the value of `prevInstr` on entry: the variable is shared with the first
loop, so it starts as the last successfully decoded instruction of the
stream. -/
def windowScan (instrs : List Instruction) (failXref : Nat) : Nat × Nat :=
  windowScanGo failXref instrs (instrs.getLast?) (0, 0)

/-- The resolution core of `getSandboxData` (lines 200-291), over the
decoded instruction stream and the external Mach-O services
(`getOffset` = `m.GetOffset`, `readAt` = `m.ReadAt` reading `size`
bytes at the given file offset). -/
def getSandboxDataCore (instrs : List Instruction) (panicStrVMAddr : Nat)
    (getOffset : Nat → Option Nat) (readAt : Nat → Nat → Option (List Nat)) :
    Option (List Nat) :=
  let references := buildReferences instrs none []
  let panicXrefVMAddr := findPanicXref references panicStrVMAddr
  let failXrefVMAddr := findFailXref references panicXrefVMAddr
  let (profileVMAddr, profileSize) := windowScan instrs failXrefVMAddr
  match getOffset profileVMAddr with
  | none => none
  | some profileOffset => readAt profileOffset profileSize

/-! ## Derived views of the blob used to state properties -/

/-- The length-prefixed byte string stored at absolute offset `loc`:
a u16 length followed by that many bytes (bytes past the end of the blob
read as the zero padding a short `Read` leaves behind). -/
def storedStringAt (blob : List Nat) (loc : Nat) : List Nat :=
  bytesAt blob (loc + 2) (getU16 blob loc)

/-- The `baseAddr` that `ParseSandboxCollection` derives from the header
of `blob` (lines 337-357), recomputed as a pure function of the blob. -/
def baseAddrOf (blob : List Nat) : Nat :=
  opNodeAlign (2 * (collectionAt blob 0).regexItemCount + 12 +
      2 * (collectionAt blob 0).globalVarCount +
      2 * (collectionAt blob 0).msgItemCount +
      profileSizeOf (collectionAt blob 0).opCount *
        (collectionAt blob 0).profileCount) +
    (collectionAt blob 0).opNodeSize * 8

/-! ## Concrete inputs used by the claim theorems -/

/-- A 43-byte collection blob: op-node size 1, one operation, one profile
whose single operation has op-node index 0; the op-node offset table has
one entry, the absolute offset 35, where the u64 value `0x99` is stored.
Layout: header (12) ‖ profile record (6) ‖ padding to the 8-aligned
op-node start 24 ‖ offset table (2) ‖ padding (6) ‖ name at `baseAddr`
32 (u16 length 1, byte `A`) ‖ u64 op-node value at 35. -/
def c1blob : List Nat :=
  [0x01, 0, 0x01, 0, 0x01, 0x00, 0x01, 0, 0, 0, 0, 0] ++
  [0, 0, 0x01, 0, 0, 0] ++
  [0, 0, 0, 0, 0, 0] ++
  [35, 0] ++ [0, 0, 0, 0, 0, 0] ++
  [0x01, 0] ++ [0x41] ++
  [0x99, 0, 0, 0, 0, 0, 0, 0]

/-- A 27-byte collection blob with one regex entry.  The u16 at offset 12
is 1 and the u16 at offset 16 is 0; the regex body (length 1, byte `0xAB`)
is stored at `baseAddr + 8 * 1 = 24`. -/
def c3blob : List Nat :=
  [0x01, 0, 0, 0, 0, 0, 0, 0, 0x01, 0, 0, 0] ++
  [0x01, 0] ++ [0, 0, 0, 0, 0, 0, 0, 0, 0, 0] ++
  [0x01, 0] ++ [0xAB]

/-- A minimal 12-byte collection blob: every count is zero, so the blob
is exactly one header with no tables at all. -/
def c3empty : List Nat := [0x01, 0, 0, 0, 0, 0, 0, 0, 0, 0, 0, 0]

/-- A 19-byte collection blob with one profile whose name declares length
5 at offset 16, while only one byte (`A` at offset 18) remains in the
blob: the name body read is short by four bytes. -/
def c7blob : List Nat :=
  [0x01, 0, 0, 0, 0, 0, 0x01, 0, 0, 0, 0, 0] ++
  [0, 0, 0x01, 0] ++ [0x05, 0] ++ [0x41]

/-- A 31-byte collection blob with one global-variable string whose
stored bytes are `00 61 00 62 00` (leading NUL, embedded NUL, trailing
NUL). -/
def c9blob : List Nat :=
  [0x01, 0, 0, 0, 0, 0x01, 0, 0, 0, 0, 0, 0] ++
  [0x01, 0] ++ [0, 0, 0, 0, 0, 0, 0, 0, 0, 0] ++
  [0x05, 0] ++ [0, 0x61, 0, 0x62, 0]

/-- The operation entry that parsing `c1blob` produces: index 0 but
value 0. -/
def c1operation : SandboxOperation :=
  { name := "default", index := 0, value := 0 }

/-- The profile that parsing `c1blob` produces. -/
def c1profile : SandboxProfile :=
  { name := [0x41], version := 1, operations := [c1operation] }

/-- The `Sandbox` value that parsing `c1blob` produces. -/
def c1expected : SandboxValue :=
  { globals := []
    regexes := []
    opNodes := [(35, 0x99)]
    profiles := [c1profile] }

/-- The `Sandbox` value that parsing `c3blob` produces. -/
def c3expected : SandboxValue :=
  { globals := [], regexes := [(1, [0xAB])], opNodes := [], profiles := [] }

/-- The `Sandbox` value that parsing `c3empty` produces. -/
def c3emptyExpected : SandboxValue :=
  { globals := [], regexes := [], opNodes := [], profiles := [] }

/-- The `Sandbox` value that parsing `c7blob` produces. -/
def c7expected : SandboxValue :=
  { globals := []
    regexes := []
    opNodes := []
    profiles := [{ name := [0x41], version := 1, operations := [] }] }

/-- The `Sandbox` value that parsing `c9blob` produces. -/
def c9expected : SandboxValue :=
  { globals := [(1, [0x61, 0, 0x62])]
    regexes := []
    opNodes := []
    profiles := [] }

/-- Register operand `X0`. -/
def regOperand : Operand :=
  { registers := [0], immediate := 0, cls := OperandClass.REG,
    shiftType := ShiftType.SHIFT_TYPE_NONE, shiftValue := 0 }

/-- Instruction `MOV X0, #0x1234` at address `0xEC`. -/
def c6mov : Instruction :=
  { address := 0xEC, operation := Operation.ARM64_MOV,
    encoding := Encoding.ENC_OTHER,
    operands := [regOperand,
      { registers := [], immediate := 0x1234, cls := OperandClass.IMM64,
        shiftType := ShiftType.SHIFT_TYPE_NONE, shiftValue := 0 }] }

/-- Instruction `MOVK X0, #0x5, LSL #16` at address `0xF0`. -/
def c6movk : Instruction :=
  { address := 0xF0, operation := Operation.ARM64_MOVK,
    encoding := Encoding.ENC_OTHER,
    operands := [regOperand,
      { registers := [], immediate := 0x5, cls := OperandClass.IMM32,
        shiftType := ShiftType.SHIFT_TYPE_LSL, shiftValue := 16 }] }

/-- Instruction `MOV X0, #0x10000` (a `MOVZ X0, #1, LSL #16`; the
disassembler reports the materialized immediate `0x10000`). -/
def c6movHigh : Instruction :=
  { address := 0xEC, operation := Operation.ARM64_MOV,
    encoding := Encoding.ENC_OTHER,
    operands := [regOperand,
      { registers := [], immediate := 0x10000, cls := OperandClass.IMM64,
        shiftType := ShiftType.SHIFT_TYPE_NONE, shiftValue := 0 }] }

/-- Instruction `MOVK X0, #0x1, LSL #16` at address `0xF0`: its inserted
bits overlap the bits already set by `c6movHigh`. -/
def c6movkOverlap : Instruction :=
  { address := 0xF0, operation := Operation.ARM64_MOVK,
    encoding := Encoding.ENC_OTHER,
    operands := [regOperand,
      { registers := [], immediate := 0x1, cls := OperandClass.IMM32,
        shiftType := ShiftType.SHIFT_TYPE_LSL, shiftValue := 16 }] }

/-! ## Helper lemmas -/

/-- Masking with `6` only looks at the low three bits. -/
lemma and_six_mod_eight (x : Nat) : x &&& 6 = x % 8 &&& 6 := by
  have h8 : (8 : Nat) = 2 ^ 3 := by norm_num
  rw [h8]
  apply Nat.eq_of_testBit_eq
  intro i
  simp only [Nat.testBit_and, Nat.testBit_mod_two_pow]
  by_cases h : i < 3
  · simp [h]
  · have h6 : Nat.testBit 6 i = false := by
      apply Nat.testBit_lt_two_pow
      calc (6 : Nat) < 2 ^ 3 := by norm_num
        _ ≤ 2 ^ i := Nat.pow_le_pow_right (by norm_num) (by omega)
    simp [h6]

/-- Addition coincides with bitwise or on numbers with disjoint bits. -/
lemma add_eq_lor_of_and_eq_zero (a : Nat) :
    ∀ b : Nat, a &&& b = 0 → a + b = a ||| b := by
  induction a using Nat.strong_induction_on with
  | _ a ih =>
    intro b h
    rcases Nat.eq_zero_or_pos a with ha | ha
    · subst ha; simp
    · have h2 : a / 2 &&& b / 2 = 0 := by
        rw [← Nat.and_div_two, h]
      have ihh := ih (a / 2) (Nat.div_lt_self ha (by norm_num)) (b / 2) h2
      have hm : ¬ (a % 2 = 1 ∧ b % 2 = 1) := by
        intro hc
        have h1 := Nat.and_mod_two_eq_one.mpr hc
        rw [h] at h1
        simp at h1
      have hone : (a ||| b) % 2 = 1 ↔ (a % 2 = 1 ∨ b % 2 = 1) :=
        Nat.or_mod_two_eq_one
      have hdiv : (a ||| b) / 2 = a / 2 ||| b / 2 := Nat.or_div_two
      omega

end Sandbox

namespace Sandbox

/-- Arithmetic characterization of the alignment mask: `x &&& 6` keeps
bits 1 and 2 of `x`, i.e. equals `x % 8 - x % 2`. -/
lemma and_six_eq (x : Nat) : x &&& 6 = x % 8 - x % 2 := by
  have h6 : x &&& 6 = x % 8 &&& 6 := and_six_mod_eight x
  have hcase : x % 8 = 0 ∨ x % 8 = 1 ∨ x % 8 = 2 ∨ x % 8 = 3 ∨ x % 8 = 4 ∨
      x % 8 = 5 ∨ x % 8 = 6 ∨ x % 8 = 7 := by omega
  rcases hcase with h | h | h | h | h | h | h | h <;> rw [h6, h] <;>
    simp only [(by decide : (0 : Nat) &&& 6 = 0),
      (by decide : (1 : Nat) &&& 6 = 0), (by decide : (2 : Nat) &&& 6 = 2),
      (by decide : (3 : Nat) &&& 6 = 2), (by decide : (4 : Nat) &&& 6 = 4),
      (by decide : (5 : Nat) &&& 6 = 4), (by decide : (6 : Nat) &&& 6 = 6),
      (by decide : (7 : Nat) &&& 6 = 6)] <;> omega

/-- C2's counterexample input is `x = 1`: `1 &&& 6 = 0`, so
`opNodeAlign 1 = 1` and `1 % 8 = 1`, which is neither 0 nor 2. -/
theorem opNodeAlign_one_mod_eight :
    ¬ (opNodeAlign 1 % 8 = 0 ∨ opNodeAlign 1 % 8 = 2) := by decide

/-- C2 (amended): for every `x`, `opNodeAlign x % 8 = x % 2` (so the
residue is 0 or 1, not 0 or 2, because the mask `6` ignores bit 0), and
`opNodeAlign x = x` holds iff `x &&& 6 = 0`. -/
theorem opNodeAlign_spec (x : Nat) :
    (opNodeAlign x % 8 = 0 ∨ opNodeAlign x % 8 = 1) ∧
    opNodeAlign x % 8 = x % 2 ∧
    (opNodeAlign x = x ↔ x &&& 6 = 0) := by
  have h6 : x &&& 6 = x % 8 - x % 2 := and_six_eq x
  unfold opNodeAlign
  split <;> refine ⟨?_, ?_, ?_⟩ <;> omega

/-- C4's counterexample input is `op_count = 254`: the `uint8` sum
`254 + 2` wraps to zero, so the computed profile record size is 0, not
`2 * (254 + 2) = 512`. -/
theorem profileSizeOf_wraps :
    profileSizeOf 254 = 0 ∧ 2 * (254 + 2) = 512 ∧ (0 : Nat) ≠ 512 := by
  decide

/-- C4 (amended): the profile record size computed by
`ParseSandboxCollection` is `2 * ((op_count + 2) mod 256)`; it equals the
exact `2 * (op_count + 2)` whenever `op_count ≤ 253` (every `u8` value
except 254 and 255). -/
theorem profileSizeOf_spec (opCount : Nat) :
    profileSizeOf opCount = 2 * ((opCount + 2) % 256) ∧
    (opCount ≤ 253 → profileSizeOf opCount = 2 * (opCount + 2)) := by
  constructor
  · unfold profileSizeOf; ring
  · intro h
    unfold profileSizeOf
    rw [Nat.mod_eq_of_lt (by omega)]
    ring

/-- Witness for C4's amended theorem at `op_count = 2`. -/
theorem profileSizeOf_spec_witness :
    profileSizeOf 2 = 2 * ((2 + 2) % 256) ∧ 2 ≤ 253 ∧
    profileSizeOf 2 = 2 * (2 + 2) :=
  ⟨(profileSizeOf_spec 2).1, by decide, (profileSizeOf_spec 2).2 (by decide)⟩

/-- C5: the step behavior of the opcode-name scan.  In order: (1) zero
pointers are skipped unconditionally; (2) a C-string read failure before
`"default"` was seen is ignored; (3) a read failure after `"default"` was
seen stops the scan without appending; (4) after `"default"` was seen, a
successfully read string under tag `0x17` is appended and the scan
continues; (5) a successfully read string under any other tag is appended
and the scan stops; (6) reading `"default"` itself sets the flag and is
already appended. -/
theorem optsLoop_step (f : Nat → Option String) (s : String) (ptr : Nat)
    (ps : List Nat) (found : Bool) :
    (optsLoop f found (0 :: ps) = optsLoop f found ps) ∧
    (ptr ≠ 0 → f (ptr ||| tagPtrMask) = none →
      optsLoop f false (ptr :: ps) = optsLoop f false ps) ∧
    (ptr ≠ 0 → f (ptr ||| tagPtrMask) = none →
      optsLoop f true (ptr :: ps) = []) ∧
    (ptr ≠ 0 → f (ptr ||| tagPtrMask) = some s → getTag ptr = 0x17 →
      optsLoop f true (ptr :: ps) = s :: optsLoop f true ps) ∧
    (ptr ≠ 0 → f (ptr ||| tagPtrMask) = some s → getTag ptr ≠ 0x17 →
      optsLoop f true (ptr :: ps) = [s]) ∧
    (ptr ≠ 0 → f (ptr ||| tagPtrMask) = some "default" → getTag ptr = 0x17 →
      optsLoop f false (ptr :: ps) = "default" :: optsLoop f true ps) ∧
    (ptr ≠ 0 → f (ptr ||| tagPtrMask) = some "default" → getTag ptr ≠ 0x17 →
      optsLoop f false (ptr :: ps) = ["default"]) := by
  refine ⟨?_, ?_, ?_, ?_, ?_, ?_, ?_⟩
  · simp [optsLoop]
  · intro h0 hf; simp [optsLoop, h0, hf]
  · intro h0 hf; simp [optsLoop, h0, hf]
  · intro h0 hf ht; simp [optsLoop, h0, hf, ht]
  · intro h0 hf ht; simp [optsLoop, h0, hf, ht]
  · intro h0 hf ht; simp [optsLoop, h0, hf, ht]
  · intro h0 hf ht; simp [optsLoop, h0, hf, ht]

/-- Witness for C5 exercising each hypothesis-bearing conjunct at
concrete inputs (pointer `8` has tag 0, pointer `0x17000000000000` has
tag `0x17`). -/
theorem optsLoop_step_witness :
    (optsLoop (fun _ => none) false (8 :: [3]) =
      optsLoop (fun _ => none) false [3]) ∧
    (optsLoop (fun _ => none) true (8 :: [3]) = []) ∧
    (optsLoop (fun _ => some "x") true (0x17000000000000 :: [0]) =
      "x" :: optsLoop (fun _ => some "x") true [0]) ∧
    (optsLoop (fun _ => some "x") true (8 :: [3]) = ["x"]) ∧
    (optsLoop (fun _ => some "default") false (0x17000000000000 :: [0]) =
      "default" :: optsLoop (fun _ => some "default") true [0]) ∧
    (optsLoop (fun _ => some "default") false (8 :: [3]) = ["default"]) := by
  refine ⟨?_, ?_, ?_, ?_, ?_, ?_⟩
  · exact (optsLoop_step (fun _ => none) "x" 8 [3] false).2.1
      (by decide) rfl
  · exact (optsLoop_step (fun _ => none) "x" 8 [3] false).2.2.1
      (by decide) rfl
  · exact (optsLoop_step (fun _ => some "x") "x" 0x17000000000000 [0]
      false).2.2.2.1 (by decide) rfl (by decide)
  · exact (optsLoop_step (fun _ => some "x") "x" 8 [3] false).2.2.2.2.1
      (by decide) rfl (by decide)
  · exact (optsLoop_step (fun _ => some "default") "default"
      0x17000000000000 [0] false).2.2.2.2.2.1 (by decide) rfl (by decide)
  · exact (optsLoop_step (fun _ => some "default") "default"
      8 [3] false).2.2.2.2.2.2 (by decide) rfl (by decide)

/-- On the not-yet-found path the output is empty or starts with
`"default"`: the first string ever appended is appended in the very
iteration in which the `found` flag flips, and the flag flips only on the
exact string `"default"`. -/
lemma optsLoop_false_head (f : Nat → Option String) :
    ∀ ps : List Nat, optsLoop f false ps = [] ∨
      (optsLoop f false ps).head? = some "default" := by
  intro ps
  induction ps with
  | nil => left; rfl
  | cons p ps ih =>
    by_cases hp : p = 0
    · subst hp; simpa [optsLoop] using ih
    · cases hf : f (p ||| tagPtrMask) with
      | none => simpa [optsLoop, hp, hf] using ih
      | some s =>
        by_cases hs : s = "default"
        · subst hs
          right
          simp [optsLoop, hp, hf]
        · simpa [optsLoop, hp, hf, hs] using ih

/-- C10: a successful `GetSandboxOpts` run yields a list that is empty or
begins with `"default"`; with the `__DATA_CONST,__const` section absent
the result is the empty list (and no error). -/
theorem getSandboxOpts_head (sec : Option (List Nat))
    (f : Nat → Option String) :
    (GetSandboxOpts none f = []) ∧
    (GetSandboxOpts sec f = [] ∨
      (GetSandboxOpts sec f).head? = some "default") := by
  refine ⟨rfl, ?_⟩
  cases sec with
  | none => left; rfl
  | some ptrs => exact optsLoop_false_head f ptrs

/-- C6's counterexample: `MOV X0, #0x10000 ; MOVK X0, #0x1, LSL #16`
inside an active window.  The locator records
`0x10000 + (1 << 16) = 0x20000`, while `imm | (imm2 << s) = 0x10000`. -/
theorem windowStep_movk_overlap :
    windowStep 0x100 (some c6movHigh) c6movkOverlap (0, 0) = (0, 0x20000) ∧
    0x10000 ||| u64shl 1 16 = 0x10000 ∧ (0x20000 : Nat) ≠ 0x10000 := by
  refine ⟨by decide, by decide, by decide⟩

/-- C6 (amended): for a fused `MOV`/`MOVK` pair in the window (matching
destination register, `IMM32` class, `LSL` shift), the locator records
`(imm + (imm2 << s)) mod 2^64` — addition, not bitwise or.  The two agree
whenever the `MOV` immediate and the shifted `MOVK` immediate share no set
bits (in particular for `MOV X0, #0x1234 ; MOVK X0, #0x5, LSL #16`, which
yields `0x51234`). -/
theorem windowStep_movk_spec (failXref : Nat) (prev ins : Instruction)
    (st : Nat × Nat)
    (hw : u64sub failXref 0x20 < ins.address ∧ ins.address < failXref)
    (hpv : prev.operation = Operation.ARM64_MOV)
    (hop : ins.operation = Operation.ARM64_MOVK)
    (hreg : reg0 (operandAt prev 0) = reg0 (operandAt ins 0))
    (hcls : (operandAt ins 1).cls = OperandClass.IMM32)
    (hsh : (operandAt ins 1).shiftType = ShiftType.SHIFT_TYPE_LSL) :
    windowStep failXref (some prev) ins st =
      (st.1, ((operandAt prev 1).immediate +
        u64shl (operandAt ins 1).immediate (operandAt ins 1).shiftValue) %
          2 ^ 64) ∧
    ((operandAt prev 1).immediate &&&
        u64shl (operandAt ins 1).immediate (operandAt ins 1).shiftValue = 0 →
      (operandAt prev 1).immediate < 2 ^ 64 →
      (windowStep failXref (some prev) ins st).2 =
        (operandAt prev 1).immediate |||
          u64shl (operandAt ins 1).immediate (operandAt ins 1).shiftValue) := by
  have hnadd : ¬ (prev.operation = Operation.ARM64_ADRP ∧
      (ins.operation = Operation.ARM64_ADD ∨
       ins.operation = Operation.ARM64_LDR)) := by
    rw [hop]; rintro ⟨-, h | h⟩ <;> exact Operation.noConfusion h
  have hnmov : ¬ ins.operation = Operation.ARM64_MOV := by
    rw [hop]; exact fun h => Operation.noConfusion h
  have hstep : windowStep failXref (some prev) ins st =
      (st.1, ((operandAt prev 1).immediate +
        u64shl (operandAt ins 1).immediate (operandAt ins 1).shiftValue) %
          2 ^ 64) := by
    simp only [windowStep]
    rw [if_pos hw, if_neg hnadd, if_neg hnmov, if_pos ⟨hop, hpv⟩,
      if_pos hreg, if_pos ⟨hcls, hsh⟩]
  refine ⟨hstep, fun hand hlt => ?_⟩
  rw [hstep]
  have hshl : u64shl (operandAt ins 1).immediate (operandAt ins 1).shiftValue
      < 2 ^ 64 := by
    unfold u64shl
    split
    · exact Nat.mod_lt _ (by norm_num)
    · norm_num
  rw [add_eq_lor_of_and_eq_zero _ _ hand]
  exact Nat.mod_eq_of_lt (Nat.or_lt_two_pow hlt hshl)

/-- Witness for C6's amended theorem: the concrete pair
`MOV X0, #0x1234 ; MOVK X0, #0x5, LSL #16` in an active window records
`0x51234`, and the bits are disjoint so the or-form agrees. -/
theorem windowStep_movk_spec_witness :
    windowStep 0x100 (some c6mov) c6movk (0, 0) =
      (0, (0x1234 + u64shl 0x5 16) % 2 ^ 64) ∧
    (windowStep 0x100 (some c6mov) c6movk (0, 0)).2 =
      0x1234 ||| u64shl 0x5 16 := by
  have h := windowStep_movk_spec 0x100 c6mov c6movk (0, 0)
    (by constructor <;> decide) rfl rfl rfl rfl rfl
  exact ⟨h.1, h.2 (by decide) (by decide)⟩

/-- With `failXrefVMAddr = 0` the window `(failXref - 0x20, failXref)` is
empty (`addr < 0` is impossible), so a window step changes nothing. -/
lemma windowStep_failXref_zero (prev : Option Instruction)
    (ins : Instruction) (st : Nat × Nat) : windowStep 0 prev ins st = st := by
  cases prev <;> · simp only [windowStep]
                   rw [if_neg (by intro h; exact Nat.not_lt_zero _ h.2)]

/-- The whole window scan with `failXrefVMAddr = 0` leaves the zero
state. -/
lemma windowScanGo_failXref_zero :
    ∀ (instrs : List Instruction) (prev : Option Instruction) (st : Nat × Nat),
      windowScanGo 0 instrs prev st = st := by
  intro instrs
  induction instrs with
  | nil => intro prev st; rfl
  | cons ins rest ih =>
    intro prev st
    show windowScanGo 0 rest (some ins) (windowStep 0 prev ins st) = st
    rw [windowStep_failXref_zero, ih]

/-- C8's counterexample: an instruction stream with no cross-references
at all — no xref to the panic string, no branch to the panic block, no
window hits — yet the locator returns bytes (the read of 0 bytes at the
offset of VM address 0 supplied by the external services) instead of
failing.  The code has no `LocatorFailed` error path. -/
theorem getSandboxDataCore_no_refs :
    getSandboxDataCore [] 0x1234 (fun _ => some 0) (fun _ _ => some []) =
      some [] ∧
    buildReferences [] none [] = [] := ⟨rfl, rfl⟩

/-- C8 (amended): `getSandboxData` performs no uniqueness or resolution
checks.  When nothing resolves (no cross-reference is recorded at all),
`panicXrefVMAddr`, `failXrefVMAddr`, `profileVMAddr` and `profileSize`
keep their zero values and the call returns exactly what the external
offset-translation and read services produce for VM address 0 and size 0;
the only possible errors are theirs. -/
theorem getSandboxDataCore_spec (instrs : List Instruction)
    (panicStrVMAddr : Nat) (getOffset : Nat → Option Nat)
    (readAt : Nat → Nat → Option (List Nat))
    (h : buildReferences instrs none [] = []) :
    getSandboxDataCore instrs panicStrVMAddr getOffset readAt =
      (getOffset 0).bind (fun off => readAt off 0) := by
  unfold getSandboxDataCore
  rw [h]
  show (match getOffset (windowScan instrs 0).1 with
    | none => none
    | some profileOffset => readAt profileOffset (windowScan instrs 0).2) = _
  unfold windowScan
  rw [windowScanGo_failXref_zero]
  cases getOffset 0 <;> rfl

/-- Witness for C8's amended theorem on the empty stream with services
that succeed at VM address 0. -/
theorem getSandboxDataCore_spec_witness :
    getSandboxDataCore [] 5 (fun _ => some 7) (fun a b => some [a + b]) =
      ((fun (_ : Nat) => some 7) 0).bind
        (fun off => (fun a b => some [a + b]) off 0) :=
  getSandboxDataCore_spec [] 5 (fun _ => some 7) (fun a b => some [a + b]) rfl

/-- C1: evaluation at the failing input.  Parsing `c1blob` succeeds; the
single operation has index 0 and the op-node read through entry 0 of the
offset table (offset 35) is `0x99`, yet the operation's resolved value is
0: the positional lookup `opNodes[o.Index]` hits one of the `opNodeCount`
zero entries that `make([]uint64, opNodeCount)` left in front of the
appended values. -/
theorem parse_c1blob_value_zero :
    ParseSandboxCollection c1blob ["default"] = some c1expected ∧
    getU16 c1blob 24 = 35 ∧ getU64 c1blob 35 = 0x99 ∧ (0 : Nat) ≠ 0x99 := by
  refine ⟨by rfl, by decide, by decide, by decide⟩

/-- C3's counterexample: `c3blob` parses successfully and its single
regex entry is keyed by the u16 read at blob offset 12 (value 1, data
byte `0xAB`), not by the u16 at offset 16 (which is 0); and the 12-byte
blob `c3empty` is accepted, so no 16-byte header is read. -/
theorem parse_c3blob_regex_at_twelve :
    ParseSandboxCollection c3blob [] = some c3expected ∧
    getU16 c3blob 12 = 1 ∧ getU16 c3blob 16 = 0 ∧ (1 : Nat) ≠ 0 ∧
    ParseSandboxCollection c3empty [] = some c3emptyExpected ∧
    c3empty.length = 12 := by
  refine ⟨by rfl, by decide, by decide, by decide, by rfl, by decide⟩

/-- C7's counterexample: in `c7blob` the profile name declares length 5
at position 16 but only one byte remains after the length field
(`c7blob.length - 18 = 1`); the parse nevertheless succeeds, returning
the name read from the zero-padded short buffer instead of an error. -/
theorem parse_c7blob_short_body :
    ParseSandboxCollection c7blob [] = some c7expected ∧
    getU16 c7blob 16 = 5 ∧ c7blob.length = 19 ∧ c7blob.length - 18 = 1 ∧
    (1 : Nat) < 5 := by
  refine ⟨by rfl, by decide, by decide, by decide, by decide⟩

/-- C9's counterexample: the stored global string of `c9blob` is
`00 61 00 62 00`; removing only its trailing NULs gives `00 61 00 62`,
but the parser returns `61 00 62` (`strings.Trim` also removes the
leading NUL) and the result still contains an embedded NUL. -/
theorem parse_c9blob_trim_both_ends :
    (ParseSandboxCollection c9blob []).map SandboxValue.globals =
      some [(1, [0x61, 0, 0x62])] ∧
    bytesAt c9blob 26 5 = [0, 0x61, 0, 0x62, 0] ∧
    ((bytesAt c9blob 26 5).reverse.dropWhile (· = 0)).reverse =
      [0, 0x61, 0, 0x62] ∧
    [0x61, 0, 0x62] ≠ [0, 0x61, 0, 0x62] ∧ (0 : Nat) ∈ [0x61, 0, 0x62] := by
  refine ⟨by rfl, by decide, by decide, by decide, by decide⟩

/-- C3 (amended): `ParseSandboxCollection` reads a 12-byte header from
the start of the blob before the offset arrays, and the regex offset
table begins at blob offset 12: whenever the header read succeeds it
leaves the reader at position 12, and the subsequent regex-offset read
returns exactly the u16 values stored at offsets 12, 14, …. -/
theorem readCollection_header_twelve (blob : List Nat)
    (c : SandboxProfileCollection) (p : Nat)
    (h : readCollection blob 0 = some (c, p))
    (hlen : 12 + 2 * c.regexItemCount ≤ blob.length) :
    p = 12 ∧
    readU16s blob p c.regexItemCount =
      some (u16sAt blob 12 c.regexItemCount, 12 + 2 * c.regexItemCount) := by
  unfold readCollection at h
  by_cases h12 : 0 + 12 ≤ blob.length
  · rw [if_pos h12] at h
    obtain ⟨-, hp⟩ := Prod.mk.injEq .. ▸ Option.some.inj h
    subst hp
    refine ⟨rfl, ?_⟩
    unfold readU16s
    rcases Nat.eq_zero_or_pos c.regexItemCount with h0 | h0
    · simp [h0, u16sAt]
    · rw [if_neg (by omega), if_pos (by omega)]
  · rw [if_neg h12] at h
    exact absurd h (by simp)

/-- Witness for C3's amended theorem on the 12-byte blob `c3empty`. -/
theorem readCollection_header_twelve_witness :
    (12 : Nat) = 12 ∧
    readU16s c3empty 12 (collectionAt c3empty 0).regexItemCount =
      some (u16sAt c3empty 12 (collectionAt c3empty 0).regexItemCount,
        12 + 2 * (collectionAt c3empty 0).regexItemCount) :=
  readCollection_header_twelve c3empty (collectionAt c3empty 0) 12
    (by rfl) (by decide)

/-- C7 (amended): every read performed through Go `binary.Read` — the
header, the offset tables, the profile records, the u16 length fields and
the u64 op-node values — returns an error when fewer bytes than requested
are available; the raw body reads (`r.Read` for profile names, globals
and regexes) return an error exactly when the position is at or past the
end of the blob, and otherwise succeed even when fewer than `n` bytes
remain, zero-padding the missing tail. -/
theorem shortRead_spec (blob : List Nat) (pos n : Nat) :
    (0 < n → blob.length < pos + n → readBytes blob pos n = none) ∧
    (blob.length < pos + 2 → readU16 blob pos = none) ∧
    (0 < n → blob.length < pos + 2 * n → readU16s blob pos n = none) ∧
    (blob.length < pos + 8 → readU64 blob pos = none) ∧
    (blob.length ≤ pos → readBody blob pos n = none) ∧
    (pos < blob.length → readBody blob pos n =
      some (bytesAt blob pos n, pos + min n (blob.length - pos))) := by
  refine ⟨?_, ?_, ?_, ?_, ?_, ?_⟩
  · intro hn hlen
    unfold readBytes
    rw [if_neg (by omega), if_neg (by omega)]
  · intro hlen
    unfold readU16
    rw [if_neg (by omega)]
  · intro hn hlen
    unfold readU16s
    rw [if_neg (by omega), if_neg (by omega)]
  · intro hlen
    unfold readU64
    rw [if_neg (by omega)]
  · intro hlen
    unfold readBody
    rw [if_neg (by omega)]
  · intro hlt
    unfold readBody
    rw [if_pos hlt]

/-- Witness for C7's amended theorem: all five short-read errors at
position 5 of the one-byte blob `[0]`, and a partial body read of 3
requested bytes at position 0 of the one-byte blob `[9]`, which succeeds
with the zero-padded buffer `[9, 0, 0]`. -/
theorem shortRead_spec_witness :
    readBytes [0] 5 1 = none ∧ readU16 [0] 5 = none ∧
    readU16s [0] 5 1 = none ∧ readU64 [0] 5 = none ∧
    readBody [0] 5 1 = none ∧
    readBody [9] 0 3 = some (bytesAt [9] 0 3, 0 + min 3 ([9].length - 0)) :=
  ⟨(shortRead_spec [0] 5 1).1 (by decide) (by decide),
   (shortRead_spec [0] 5 1).2.1 (by decide),
   (shortRead_spec [0] 5 1).2.2.1 (by decide) (by decide),
   (shortRead_spec [0] 5 1).2.2.2.1 (by decide),
   (shortRead_spec [0] 5 1).2.2.2.2.1 (by decide),
   (shortRead_spec [9] 0 3).2.2.2.2.2 (by decide)⟩

/-- A successful u16 read returns the stored value and advances by 2. -/
lemma readU16_eq (blob : List Nat) (pos v p' : Nat)
    (h : readU16 blob pos = some (v, p')) :
    v = getU16 blob pos ∧ p' = pos + 2 := by
  unfold readU16 at h
  by_cases hb : pos + 2 ≤ blob.length
  · rw [if_pos hb] at h
    obtain ⟨h1, h2⟩ := Prod.mk.injEq .. ▸ Option.some.inj h
    exact ⟨h1.symm, h2.symm⟩
  · rw [if_neg hb] at h
    exact absurd h (by simp)

/-- A successful body read returns the (possibly zero-padded) buffer
content. -/
lemma readBody_eq (blob : List Nat) (pos n : Nat) (s : List Nat) (p' : Nat)
    (h : readBody blob pos n = some (s, p')) : s = bytesAt blob pos n := by
  unfold readBody at h
  by_cases hb : pos < blob.length
  · rw [if_pos hb] at h
    obtain ⟨h1, -⟩ := Prod.mk.injEq .. ▸ Option.some.inj h
    exact h1.symm
  · rw [if_neg hb] at h
    exact absurd h (by simp)

/-- A successful header read returns the decoded header fields and
advances by 12. -/
lemma readCollection_eq (blob : List Nat) (pos : Nat)
    (c : SandboxProfileCollection) (p' : Nat)
    (h : readCollection blob pos = some (c, p')) :
    c = collectionAt blob pos ∧ p' = pos + 12 := by
  unfold readCollection at h
  by_cases hb : pos + 12 ≤ blob.length
  · rw [if_pos hb] at h
    obtain ⟨h1, h2⟩ := Prod.mk.injEq .. ▸ Option.some.inj h
    exact ⟨h1.symm, h2.symm⟩
  · rw [if_neg hb] at h
    exact absurd h (by simp)

/-- Membership after a Go-map insert: the element is the inserted pair or
was already present. -/
lemma insertAssoc_mem {α : Type} (k : Nat) (v : α) :
    ∀ (l : List (Nat × α)) (x : Nat × α),
      x ∈ insertAssoc k v l → x = (k, v) ∨ x ∈ l := by
  intro l
  induction l with
  | nil =>
    intro x hx
    exact Or.inl (by simpa [insertAssoc] using hx)
  | cons kv rest ih =>
    obtain ⟨k', v'⟩ := kv
    intro x hx
    unfold insertAssoc at hx
    by_cases hk : k' = k
    · rw [if_pos hk] at hx
      rcases List.mem_cons.mp hx with h1 | h2
      · exact Or.inl h1
      · exact Or.inr (List.mem_cons_of_mem _ h2)
    · rw [if_neg hk] at hx
      rcases List.mem_cons.mp hx with h1 | h2
      · exact Or.inr (h1 ▸ List.mem_cons_self _ _)
      · rcases ih x h2 with h3 | h4
        · exact Or.inl h3
        · exact Or.inr (List.mem_cons_of_mem _ h4)

/-- Invariant of the globals loop: every entry of the produced map is the
NUL-trimmed stored string at `baseAddr + 8 * offset`. -/
lemma readGlobals_mem (blob : List Nat) (baseAddr : Nat) :
    ∀ (gs : List Nat) (acc res : List (Nat × List Nat)),
      readGlobals blob baseAddr gs acc = some res →
      (∀ x ∈ acc, x.2 = trimNul (storedStringAt blob (baseAddr + 8 * x.1))) →
      ∀ x ∈ res, x.2 = trimNul (storedStringAt blob (baseAddr + 8 * x.1)) := by
  intro gs
  induction gs with
  | nil =>
    intro acc res h hacc
    have : acc = res := Option.some.inj h
    exact this ▸ hacc
  | cons g gs ih =>
    intro acc res h hacc
    cases hu : readU16 blob (baseAddr + 8 * g) with
    | none => simp only [readGlobals, hu] at h; exact absurd h (by simp)
    | some lp =>
      obtain ⟨len, pos'⟩ := lp
      cases hb : readBody blob pos' len with
      | none => simp only [readGlobals, hu, hb] at h; exact absurd h (by simp)
      | some sp =>
        obtain ⟨str, pos''⟩ := sp
        simp only [readGlobals, hu, hb] at h
        refine ih (insertAssoc g (trimNul str) acc) res h ?_
        intro x hx
        rcases insertAssoc_mem g (trimNul str) acc x hx with h1 | h2
        · subst h1
          obtain ⟨hlen, hpos⟩ := readU16_eq _ _ _ _ hu
          have hstr := readBody_eq _ _ _ _ _ hb
          rw [hstr, hpos, hlen]
          rfl
        · exact hacc x h2

/-- Every successfully decoded profile's name is the NUL-trimmed stored
string at `baseAddr + 8 * nameOffset` for the record's name offset. -/
lemma buildProfile_name (blob : List Nat) (baseAddr : Nat)
    (opsList : List String) (opCount : Nat) (prof : List Nat)
    (sp : SandboxProfile) (h : buildProfile blob baseAddr opsList opCount prof = some sp) :
    ∃ noff, sp.name = trimNul (storedStringAt blob (baseAddr + 8 * noff)) := by
  cases h0 : readU16 prof 0 with
  | none => simp only [buildProfile, h0] at h; exact absurd h (by simp)
  | some np =>
    obtain ⟨nameOffset, pos1⟩ := np
    cases h1 : readU16 prof pos1 with
    | none => simp only [buildProfile, h0, h1] at h; exact absurd h (by simp)
    | some vp =>
      obtain ⟨version, pos2⟩ := vp
      cases h2 : readOps prof pos2 opsList opCount with
      | none => simp only [buildProfile, h0, h1, h2] at h; exact absurd h (by simp)
      | some op =>
        obtain ⟨ops, pos3⟩ := op
        cases h3 : readU16 blob (baseAddr + 8 * nameOffset) with
        | none => simp only [buildProfile, h0, h1, h2, h3] at h; exact absurd h (by simp)
        | some lp =>
          obtain ⟨nameLength, pos4⟩ := lp
          cases h4 : readBody blob pos4 nameLength with
          | none => simp only [buildProfile, h0, h1, h2, h3, h4] at h; exact absurd h (by simp)
          | some sb =>
            obtain ⟨str, pos5⟩ := sb
            simp only [buildProfile, h0, h1, h2, h3, h4] at h
            refine ⟨nameOffset, ?_⟩
            obtain ⟨hlen, hpos⟩ := readU16_eq _ _ _ _ h3
            have hstr := readBody_eq _ _ _ _ _ h4
            rw [← Option.some.inj h]
            show trimNul str = _
            rw [hstr, hpos, hlen]
            rfl

/-- The profile-record loop preserves `buildProfile_name` for every
produced profile. -/
lemma buildProfiles_name (blob : List Nat) (baseAddr : Nat)
    (opsList : List String) (opCount : Nat) :
    ∀ (datas : List (List Nat)) (sps : List SandboxProfile),
      buildProfiles blob baseAddr opsList opCount datas = some sps →
      ∀ sp ∈ sps,
        ∃ noff, sp.name = trimNul (storedStringAt blob (baseAddr + 8 * noff)) := by
  intro datas
  induction datas with
  | nil =>
    intro sps h sp hsp
    have : ([] : List SandboxProfile) = sps := Option.some.inj h
    rw [← this] at hsp
    exact absurd hsp (by simp)
  | cons d ds ih =>
    intro sps h sp hsp
    cases h0 : buildProfile blob baseAddr opsList opCount d with
    | none => simp only [buildProfiles, h0] at h; exact absurd h (by simp)
    | some sp0 =>
      cases h1 : buildProfiles blob baseAddr opsList opCount ds with
      | none => simp only [buildProfiles, h0, h1] at h; exact absurd h (by simp)
      | some sps0 =>
        simp only [buildProfiles, h0, h1] at h
        rw [← Option.some.inj h] at hsp
        rcases List.mem_cons.mp hsp with h2 | h2
        · exact h2 ▸ buildProfile_name _ _ _ _ _ _ h0
        · exact ih sps0 h1 sp h2

/-- Value resolution does not change a profile's name. -/
lemma resolveProfile_name (positional : List Nat) (p p' : SandboxProfile)
    (h : resolveProfile positional p = some p') : p'.name = p.name := by
  cases h0 : resolveOpList positional p.operations with
  | none => simp only [resolveProfile, h0] at h; exact absurd h (by simp)
  | some ops =>
    simp only [resolveProfile, h0] at h
    rw [← Option.some.inj h]

/-- Value resolution preserves the set of profile names. -/
lemma resolveValues_name (positional : List Nat) :
    ∀ (ps ps' : List SandboxProfile),
      resolveValues positional ps = some ps' →
      ∀ p' ∈ ps', ∃ p ∈ ps, p'.name = p.name := by
  intro ps
  induction ps with
  | nil =>
    intro ps' h p' hp'
    have : ([] : List SandboxProfile) = ps' := Option.some.inj h
    rw [← this] at hp'
    exact absurd hp' (by simp)
  | cons p ps ih =>
    intro ps' h p' hp'
    cases h0 : resolveProfile positional p with
    | none => simp only [resolveValues, h0] at h; exact absurd h (by simp)
    | some q =>
      cases h1 : resolveValues positional ps with
      | none => simp only [resolveValues, h0, h1] at h; exact absurd h (by simp)
      | some qs =>
        simp only [resolveValues, h0, h1] at h
        rw [← Option.some.inj h] at hp'
        rcases List.mem_cons.mp hp' with h2 | h2
        · exact ⟨p, List.mem_cons_self _ _, h2 ▸ resolveProfile_name _ _ _ h0⟩
        · obtain ⟨r, hr, he⟩ := ih qs h1 p' h2
          exact ⟨r, List.mem_cons_of_mem _ hr, he⟩

/-- C9 (amended): in every successfully parsed blob, each global string
is the stored length-prefixed byte string at `baseAddr + 8 * offset` with
leading **and** trailing NUL bytes removed (`strings.Trim` cuts both
ends), and each profile name is likewise the stored length-prefixed byte
string at `baseAddr + 8 * nameOffset` trimmed at both ends.  Interior NUL
bytes are preserved, so names and globals may still contain embedded
NULs. -/
theorem parse_names_trimmed (blob : List Nat) (opsList : List String)
    (sb : SandboxValue) (h : ParseSandboxCollection blob opsList = some sb) :
    (∀ gv ∈ sb.globals,
      gv.2 = trimNul (storedStringAt blob (baseAddrOf blob + 8 * gv.1))) ∧
    (∀ p ∈ sb.profiles,
      ∃ noff,
        p.name = trimNul (storedStringAt blob (baseAddrOf blob + 8 * noff))) := by
  simp only [ParseSandboxCollection, Option.bind_eq_some] at h
  obtain ⟨cp, hcol, ro, hro, go, hgo, mo, hmo, pd, hpd, profs, hbp, ono,
    hono, pm, hpm, profs2, hrv, globals, hglob, regexes, hreg, hlast⟩ := h
  obtain ⟨hc, -⟩ := readCollection_eq blob 0 cp.1 cp.2 hcol
  rw [← Option.some.inj hlast]
  constructor
  · intro gv hgv
    rw [hc] at hglob
    exact readGlobals_mem blob (baseAddrOf blob) go.1 [] globals hglob
      (by intro x hx; exact absurd hx (List.not_mem_nil x)) gv hgv
  · intro p hp'
    obtain ⟨q, hq, hname⟩ := resolveValues_name pm.1 profs profs2 hrv p hp'
    rw [hc] at hbp
    obtain ⟨noff, hn⟩ :=
      buildProfiles_name blob (baseAddrOf blob) opsList
        (collectionAt blob 0).opCount pd.1 profs hbp q hq
    exact ⟨noff, hname.trans hn⟩

/-- Witness for C9's amended theorem on the concrete blob `c9blob`. -/
theorem parse_names_trimmed_witness :
    (∀ gv ∈ c9expected.globals,
      gv.2 = trimNul (storedStringAt c9blob (baseAddrOf c9blob + 8 * gv.1))) ∧
    (∀ p ∈ c9expected.profiles,
      ∃ noff,
        p.name = trimNul (storedStringAt c9blob
          (baseAddrOf c9blob + 8 * noff))) :=
  parse_names_trimmed c9blob [] c9expected (by rfl)

end Sandbox
